import Mathlib

/-!
# Verification of the go-i2c register-transport layer

A shallow embedding of `i2c.go` (package `i2c` of swdee/go-i2c).

The Go code drives an I2C bus through an `os.File` plus `ioctl` calls.
We model the environment (the open file descriptor together with the
device on the other end of the bus) as an explicit state `File`:

* `closed` — whether `Close` has been called (os.File refuses I/O on a
  closed file, returning `os.ErrClosed`, and performs no bus I/O);
* `reads` — the queue of outcomes of successive `os.File.Read` calls:
  either the bytes the device answers with, or an injected I/O error;
* `writes` — the queue of injected outcomes of successive
  `os.File.Write` calls (`none` = success; an exhausted queue also
  means success, so the happy path needs no queue);
* `ioctls` — likewise for the combined `I2C_RDWR` ioctl;
* `trace` — the bus I/O actually performed, in order.

Go machine integers are embedded as `Nat` (unsigned) and `Int`
(signed) with explicit wrap-around: `byte` casts are `% 256`, `uint16`
arithmetic wraps `% 65536`, and `int16` values are `Int`s in
`[-32768, 32767]` manipulated through their 16-bit two's-complement
pattern.  Go's `>>` on a signed operand is an arithmetic shift.
-/

namespace I2C

/-- Errors surfaced by the environment.  `errClosed` stands for
`os.ErrClosed` (the error an `os.File` returns once closed); `ioErr`
stands for any driver/OS failure, tagged by a code so distinct injected
errors can be told apart. -/
inductive Err where
  | errClosed
  | ioErr (code : Nat)
deriving DecidableEq, Repr

/-- The `i2c_msg` struct of `i2c.go` (mirrors Linux's `struct i2c_msg`).
The Go struct stores a raw pointer in `buf`; the embedding stores the
byte sequence that pointer designates. -/
structure I2CMsg where
  addr : Nat
  flags : Nat
  len : Nat
  buf : List Nat
deriving DecidableEq, Repr

/-- One unit of bus I/O actually performed, as observed on the wire. -/
inductive Event where
  | evWrite (buf : List Nat)
  | evRead (buf : List Nat)
  | evIoctl (msgs : List I2CMsg)
deriving DecidableEq, Repr

deriving instance DecidableEq for Except

/-- The state of the open descriptor and of the device behind it. -/
structure File where
  closed : Bool
  reads : List (Except Err (List Nat))
  writes : List (Option Err)
  ioctls : List (Option Err)
  trace : List Event
deriving DecidableEq, Repr

/-- `I2C_M_RD`, the read-direction flag bit of a message descriptor.
`cgo.go` imports it from `<linux/i2c.h>`, where its value is `0x0001`. -/
def I2C_M_RD : Nat := 0x0001

/-- A Go `[]byte` holds values below 256; bytes coming from the device
are stored reduced `% 256`. -/
def toBytes (l : List Nat) : List Nat := l.map (· % 256)

/-- `os.File.Read` into a buffer of length `n` (modelled): fails with
`os.ErrClosed` on a closed file without touching the bus; otherwise the
device's answer fills the zero-initialised buffer up to `n` bytes and
the call returns the count actually read.  Returns
(count, filled buffer, error, new state). -/
def fileRead (f : File) (n : Nat) : Nat × List Nat × Option Err × File :=
  if f.closed then (0, List.replicate n 0, some .errClosed, f)
  else
    match f.reads with
    | [] => (0, List.replicate n 0, some (.ioErr 0), f)
    | .error e :: rest => (0, List.replicate n 0, some e,
        { f with reads := rest })
    | .ok resp :: rest =>
        let buf := (toBytes resp).take n
          ++ List.replicate (n - (toBytes resp).length) 0
        (min n resp.length, buf, none,
         { f with reads := rest, trace := f.trace ++ [.evRead buf] })

/-- `os.File.Write` (modelled): fails with `os.ErrClosed` on a closed
file without touching the bus; otherwise the next injected outcome
applies (an exhausted queue means success), and on success the bytes go
out on the bus and the call returns their count. -/
def fileWrite (f : File) (buf : List Nat) : Nat × Option Err × File :=
  if f.closed then (0, some .errClosed, f)
  else
    match f.writes with
    | some e :: rest => (0, some e, { f with writes := rest })
    | none :: rest => (buf.length, none,
        { f with writes := rest, trace := f.trace ++ [.evWrite buf] })
    | [] => (buf.length, none, { f with trace := f.trace ++ [.evWrite buf] })

/-- The `I2C_RDWR` ioctl issuing a combined message array (modelled).
On a closed file, `os.File.Fd()` yields an invalid descriptor and the
raw syscall fails with `EBADF` (code 9) without any bus I/O.  Otherwise
the next injected outcome applies; on success the whole message array
is executed as one combined bus transaction. -/
def ioctlRdwr (f : File) (msgs : List I2CMsg) : Option Err × File :=
  if f.closed then (some (.ioErr 9), f)
  else
    match f.ioctls with
    | some e :: rest => (some e, { f with ioctls := rest })
    | none :: rest => (none,
        { f with ioctls := rest, trace := f.trace ++ [.evIoctl msgs] })
    | [] => (none, { f with trace := f.trace ++ [.evIoctl msgs] })

/-! ## Machine-integer helpers -/

/-- The `int16` whose 16-bit two's-complement pattern is `p % 65536`. -/
def int16ofPattern (p : Nat) : Int :=
  if p % 65536 < 32768 then (p % 65536 : Nat) else (p % 65536 : Nat) - 65536

/-- The 16-bit two's-complement pattern of an `int16` value. -/
def patternOfInt16 (v : Int) : Nat := (v % 65536).toNat

/-- Go's arithmetic right shift by 8 of the `int16` with pattern `p`. -/
def sar8 (p : Nat) : Int :=
  if p % 65536 < 32768 then ((p % 65536) >>> 8 : Nat)
  else ((p % 65536) >>> 8 : Nat) - 256

/-- Wrapping `int16` addition: Go `int16` arithmetic wraps around. -/
def int16wrap (v : Int) : Int := int16ofPattern (patternOfInt16 v)

/-! ## The operations of `i2c.go`

Each method of `*Options` becomes a function threading the `File`
state.  Go's multiple return values `(v, err)` become tuples with an
`Option Err` component (`none` = Go's `nil` error); results carry the
zero value of their type alongside a `some` error, exactly as the Go
code returns `0`/`nil` there. -/

/-- `ReadBytes`: `o.rc.Read(buf)` on a caller-supplied buffer of length
`n`; returns (count, filled buffer, error, state). -/
def ReadBytes (f : File) (n : Nat) : Nat × List Nat × Option Err × File :=
  fileRead f n

/-- `WriteBytes`: `o.rc.Write(buf)`. -/
def WriteBytes (f : File) (buf : List Nat) : Nat × Option Err × File :=
  fileWrite f buf

/-- `ReadRegBytes(reg, n)`: write `[reg]`, then read `n` bytes.
Returns (buffer or nil, count, error, state). -/
def ReadRegBytes (f : File) (reg : Nat) (n : Nat) :
    Option (List Nat) × Nat × Option Err × File :=
  let (_, e1, f1) := WriteBytes f [reg % 256]
  match e1 with
  | some err => (none, 0, some err, f1)
  | none =>
    let (c, buf, e2, f2) := ReadBytes f1 n
    match e2 with
    | some err => (none, 0, some err, f2)
    | none => (some buf, c, none, f2)

/-- `ReadRegU8(reg)`: write `[reg]`, read 1 byte, return `buf[0]`. -/
def ReadRegU8 (f : File) (reg : Nat) : Nat × Option Err × File :=
  let (_, e1, f1) := WriteBytes f [reg % 256]
  match e1 with
  | some err => (0, some err, f1)
  | none =>
    let (_, buf, e2, f2) := ReadBytes f1 1
    match e2 with
    | some err => (0, some err, f2)
    | none => (buf.getD 0 0, none, f2)

/-- `ReadRegU16BE(reg)`: write `[reg]`, read 2 bytes, decode
`uint16(buf[0])<<8 + uint16(buf[1])`. -/
def ReadRegU16BE (f : File) (reg : Nat) : Nat × Option Err × File :=
  let (_, e1, f1) := WriteBytes f [reg % 256]
  match e1 with
  | some err => (0, some err, f1)
  | none =>
    let (_, buf, e2, f2) := ReadBytes f1 2
    match e2 with
    | some err => (0, some err, f2)
    | none => (((buf.getD 0 0) <<< 8 + buf.getD 1 0) % 65536, none, f2)

/-- `ReadRegU16LE(reg)`: read BE, then `w = (w&0xFF)<<8 + w>>8`
(`uint16`, so the right shift is logical). -/
def ReadRegU16LE (f : File) (reg : Nat) : Nat × Option Err × File :=
  let (w, err, f1) := ReadRegU16BE f reg
  match err with
  | some e => (0, some e, f1)
  | none => (((w &&& 0xFF) <<< 8 + w >>> 8) % 65536, none, f1)

/-- `ReadRegS16BE(reg)`: write `[reg]`, read 2 bytes, decode
`int16(buf[0])<<8 + int16(buf[1])` (wrapping `int16` arithmetic). -/
def ReadRegS16BE (f : File) (reg : Nat) : Int × Option Err × File :=
  let (_, e1, f1) := WriteBytes f [reg % 256]
  match e1 with
  | some err => (0, some err, f1)
  | none =>
    let (_, buf, e2, f2) := ReadBytes f1 2
    match e2 with
    | some err => (0, some err, f2)
    | none => (int16ofPattern ((buf.getD 0 0) <<< 8 + buf.getD 1 0), none, f2)

/-- `ReadRegS16LE(reg)`: read S16BE, then `w = (w&0xFF)<<8 + w>>8` on
`int16`: `w&0xFF` keeps the low byte of the pattern, `<<8` wraps, and
`>>8` is Go's arithmetic right shift on the signed value. -/
def ReadRegS16LE (f : File) (reg : Nat) : Int × Option Err × File :=
  let (w, err, f1) := ReadRegS16BE f reg
  match err with
  | some e => (0, some e, f1)
  | none =>
      (int16wrap (int16ofPattern ((patternOfInt16 w &&& 0xFF) <<< 8)
        + sar8 (patternOfInt16 w)), none, f1)

/-- `ReadRegU32BE(reg)`: write `[reg]`, read 4 bytes, decode
`uint32(buf[0])<<24 | uint32(buf[1])<<16 | uint32(buf[2])<<8 | uint32(buf[3])`. -/
def ReadRegU32BE (f : File) (reg : Nat) : Nat × Option Err × File :=
  let (_, e1, f1) := WriteBytes f [reg % 256]
  match e1 with
  | some err => (0, some err, f1)
  | none =>
    let (_, buf, e2, f2) := ReadBytes f1 4
    match e2 with
    | some err => (0, some err, f2)
    | none => ((buf.getD 0 0) <<< 24 ||| (buf.getD 1 0) <<< 16
        ||| (buf.getD 2 0) <<< 8 ||| buf.getD 3 0, none, f2)

/-- `WriteRegBytes(reg, buf)`: one write of `append([]byte{reg}, buf...)`. -/
def WriteRegBytes (f : File) (reg : Nat) (buf : List Nat) :
    Nat × Option Err × File :=
  WriteBytes f (reg % 256 :: buf)

/-- `WriteRegU8(reg, value)`: one write of `[]byte{reg, value}`. -/
def WriteRegU8 (f : File) (reg : Nat) (value : Nat) : Option Err × File :=
  let (_, err, f1) := WriteBytes f [reg % 256, value % 256]
  (err, f1)

/-- `WriteRegU16BE(reg, value)`: one write of
`[]byte{reg, byte((value & 0xFF00) >> 8), byte(value & 0xFF)}`. -/
def WriteRegU16BE (f : File) (reg : Nat) (value : Nat) : Option Err × File :=
  let (_, err, f1) := WriteBytes f
    [reg % 256, ((value &&& 0xFF00) >>> 8) % 256, (value &&& 0xFF) % 256]
  (err, f1)

/-- `WriteRegU16LE(reg, value)`: computes
`w := (value*0xFF00)>>8 + value<<8` in wrapping `uint16` arithmetic —
note the `*`, a multiplication, as written in the source — then
delegates to `WriteRegU16BE`. -/
def WriteRegU16LE (f : File) (reg : Nat) (value : Nat) : Option Err × File :=
  let w := ((value * 0xFF00 % 65536) >>> 8 + value <<< 8 % 65536) % 65536
  WriteRegU16BE f reg w

/-- `WriteRegS16BE(reg, value)`: one write of
`[]byte{reg, byte((uint16(value) & 0xFF00) >> 8), byte(value & 0xFF)}`;
`uint16(value)` is the two's-complement pattern of the `int16`. -/
def WriteRegS16BE (f : File) (reg : Nat) (value : Int) : Option Err × File :=
  let (_, err, f1) := WriteBytes f
    [reg % 256, ((patternOfInt16 value &&& 0xFF00) >>> 8) % 256,
     (patternOfInt16 value &&& 0xFF) % 256]
  (err, f1)

/-- `WriteRegS16LE(reg, value)`: computes
`w := int16((uint16(value)*0xFF00)>>8) + value<<8` — again a `*` as in
the source, with wrapping `uint16` then `int16` arithmetic — and
delegates to `WriteRegS16BE`. -/
def WriteRegS16LE (f : File) (reg : Nat) (value : Int) : Option Err × File :=
  let w := int16wrap (int16ofPattern ((patternOfInt16 value * 0xFF00 % 65536) >>> 8)
    + int16ofPattern ((patternOfInt16 value <<< 8) % 65536))
  WriteRegS16BE f reg w

/-- `WriteRegU24BE(reg, value)`: one write of
`[]byte{reg, byte(value>>16 & 0xFF), byte(value>>8 & 0xFF), byte(value & 0xFF)}`. -/
def WriteRegU24BE (f : File) (reg : Nat) (value : Nat) : Option Err × File :=
  let (_, err, f1) := WriteBytes f
    [reg % 256, (value >>> 16 &&& 0xFF) % 256, (value >>> 8 &&& 0xFF) % 256,
     (value &&& 0xFF) % 256]
  (err, f1)

/-- `WriteRegU32BE(reg, value)`: one write of `[]byte{reg,
byte(value>>24 & 0xFF), byte(value>>16 & 0xFF), byte(value>>8 & 0xFF),
byte(value & 0xFF)}`. -/
def WriteRegU32BE (f : File) (reg : Nat) (value : Nat) : Option Err × File :=
  let (_, err, f1) := WriteBytes f
    [reg % 256, (value >>> 24 &&& 0xFF) % 256, (value >>> 16 &&& 0xFF) % 256,
     (value >>> 8 &&& 0xFF) % 256, (value &&& 0xFF) % 256]
  (err, f1)

/-- The possible outcomes of a Go call that can panic. -/
inductive Outcome (α : Type) where
  | ok (a : α)
  | err (e : Err)
  | panic
deriving DecidableEq, Repr

/-- `WriteThenReadBytes(writeBuf, readBuf)`: builds two `i2c_msg`
descriptors — taking `&writeBuf[0]` and `&readBuf[0]`, which panics
with an index-out-of-range on an empty slice before any I/O — and
issues them in a single `I2C_RDWR` ioctl; on success it returns
`(len(writeBuf), len(readBuf))`.  `addr` is the handle's `o.addr`
(a `uint8`); each descriptor carries `uint16(len(buf))`. -/
def WriteThenReadBytes (addr : Nat) (f : File)
    (writeBuf readBuf : List Nat) : Outcome (Nat × Nat) × File :=
  if writeBuf = [] ∨ readBuf = [] then (.panic, f)
  else
    let msgs : List I2CMsg :=
      [⟨addr % 256, 0, writeBuf.length % 65536, writeBuf⟩,
       ⟨addr % 256, I2C_M_RD, readBuf.length % 65536, readBuf⟩]
    let (e, f1) := ioctlRdwr f msgs
    match e with
    | some err => (.err err, f1)
    | none => (.ok (writeBuf.length, readBuf.length), f1)

/-- `Close`: `o.rc.Close()`.  `os.File.Close` releases the resource the
first time and returns `os.ErrClosed` on a second close. -/
def Close (f : File) : Option Err × File :=
  if f.closed then (some .errClosed, f)
  else (none, { f with closed := true })

/-! ## Helper lemmas -/

theorem and255_eq_mod (n : Nat) : n &&& 255 = n % 256 := by
  simpa using Nat.and_pow_two_sub_one_eq_mod n 8

/-! ## The claims -/

/-- C7: `ReadRegS16BE` decodes the two response bytes as a signed
16-bit two's-complement value with the first byte as the high byte: for
any register, response bytes `[0xFF, 0xFF]` yield `-1` and response
bytes `[0x80, 0x00]` yield `-32768`. -/
theorem readRegS16BE_twos_complement (reg : Nat)
    (qs : List (Except Err (List Nat))) (is : List (Option Err))
    (tr : List Event) :
    (ReadRegS16BE ⟨false, .ok [0xFF, 0xFF] :: qs, [], is, tr⟩ reg).1 = -1 ∧
    (ReadRegS16BE ⟨false, .ok [0x80, 0x00] :: qs, [], is, tr⟩ reg).1 = -32768 :=
  ⟨rfl, rfl⟩

/-- C3: for every pair of non-empty write and read buffers (written
`a :: wrest` and `b :: rrest`), `WriteThenReadBytes` extends the bus
trace by exactly one combined ioctl event — so zero standalone write or
read events — whose two descriptors carry the write buffer with the
read-direction flag clear and the read buffer with `I2C_M_RD` set, and
on success it returns the byte counts written and read. -/
theorem writeThenReadBytes_single_ioctl (addr a b : Nat)
    (wrest rrest : List Nat) (qs : List (Except Err (List Nat)))
    (ws : List (Option Err)) (tr : List Event) :
    WriteThenReadBytes addr ⟨false, qs, ws, [], tr⟩ (a :: wrest) (b :: rrest) =
      (.ok ((a :: wrest).length, (b :: rrest).length),
       ⟨false, qs, ws, [],
        tr ++ [.evIoctl
          [⟨addr % 256, 0, (a :: wrest).length % 65536, a :: wrest⟩,
           ⟨addr % 256, I2C_M_RD, (b :: rrest).length % 65536, b :: rrest⟩]]⟩) :=
  rfl

/-- C4: once `Close` succeeds on an open handle, every subsequent read,
write, or register operation fails with the resource-closed error
`errClosed`, returns the zero/nil value of its type, and leaves the
state — in particular the bus trace — untouched: no bus I/O happens. -/
theorem closed_handle_ops_fail (qs : List (Except Err (List Nat)))
    (ws is : List (Option Err)) (tr : List Event)
    (reg n value : Nat) (sval : Int) (buf : List Nat) :
    Close ⟨false, qs, ws, is, tr⟩ = (none, ⟨true, qs, ws, is, tr⟩) ∧
    ReadBytes ⟨true, qs, ws, is, tr⟩ n
      = (0, List.replicate n 0, some .errClosed, ⟨true, qs, ws, is, tr⟩) ∧
    WriteBytes ⟨true, qs, ws, is, tr⟩ buf
      = (0, some .errClosed, ⟨true, qs, ws, is, tr⟩) ∧
    ReadRegBytes ⟨true, qs, ws, is, tr⟩ reg n
      = (none, 0, some .errClosed, ⟨true, qs, ws, is, tr⟩) ∧
    ReadRegU8 ⟨true, qs, ws, is, tr⟩ reg
      = (0, some .errClosed, ⟨true, qs, ws, is, tr⟩) ∧
    ReadRegU16BE ⟨true, qs, ws, is, tr⟩ reg
      = (0, some .errClosed, ⟨true, qs, ws, is, tr⟩) ∧
    ReadRegU16LE ⟨true, qs, ws, is, tr⟩ reg
      = (0, some .errClosed, ⟨true, qs, ws, is, tr⟩) ∧
    ReadRegS16BE ⟨true, qs, ws, is, tr⟩ reg
      = (0, some .errClosed, ⟨true, qs, ws, is, tr⟩) ∧
    ReadRegS16LE ⟨true, qs, ws, is, tr⟩ reg
      = (0, some .errClosed, ⟨true, qs, ws, is, tr⟩) ∧
    ReadRegU32BE ⟨true, qs, ws, is, tr⟩ reg
      = (0, some .errClosed, ⟨true, qs, ws, is, tr⟩) ∧
    WriteRegBytes ⟨true, qs, ws, is, tr⟩ reg buf
      = (0, some .errClosed, ⟨true, qs, ws, is, tr⟩) ∧
    WriteRegU8 ⟨true, qs, ws, is, tr⟩ reg value
      = (some .errClosed, ⟨true, qs, ws, is, tr⟩) ∧
    WriteRegU16BE ⟨true, qs, ws, is, tr⟩ reg value
      = (some .errClosed, ⟨true, qs, ws, is, tr⟩) ∧
    WriteRegU16LE ⟨true, qs, ws, is, tr⟩ reg value
      = (some .errClosed, ⟨true, qs, ws, is, tr⟩) ∧
    WriteRegS16BE ⟨true, qs, ws, is, tr⟩ reg sval
      = (some .errClosed, ⟨true, qs, ws, is, tr⟩) ∧
    WriteRegS16LE ⟨true, qs, ws, is, tr⟩ reg sval
      = (some .errClosed, ⟨true, qs, ws, is, tr⟩) ∧
    WriteRegU24BE ⟨true, qs, ws, is, tr⟩ reg value
      = (some .errClosed, ⟨true, qs, ws, is, tr⟩) ∧
    WriteRegU32BE ⟨true, qs, ws, is, tr⟩ reg value
      = (some .errClosed, ⟨true, qs, ws, is, tr⟩) :=
  ⟨rfl, rfl, rfl, rfl, rfl, rfl, rfl, rfl, rfl, rfl, rfl, rfl, rfl, rfl,
   rfl, rfl, rfl, rfl⟩

/-- C5: in every `readReg*` operation, a failure of the 1-byte
register-address write (queue head `some e`) or of the subsequent read
(queue head `.error e`) aborts the operation, which returns the
underlying error `e` unchanged together with the zero/nil result; no
partial-success value is ever produced. -/
theorem readReg_error_propagation (reg n : Nat) (e : Err)
    (qs rs : List (Except Err (List Nat))) (ws is : List (Option Err))
    (tr : List Event) :
    ReadRegBytes ⟨false, qs, some e :: ws, is, tr⟩ reg n
      = (none, 0, some e, ⟨false, qs, ws, is, tr⟩) ∧
    ReadRegU8 ⟨false, qs, some e :: ws, is, tr⟩ reg
      = (0, some e, ⟨false, qs, ws, is, tr⟩) ∧
    ReadRegU16BE ⟨false, qs, some e :: ws, is, tr⟩ reg
      = (0, some e, ⟨false, qs, ws, is, tr⟩) ∧
    ReadRegU16LE ⟨false, qs, some e :: ws, is, tr⟩ reg
      = (0, some e, ⟨false, qs, ws, is, tr⟩) ∧
    ReadRegS16BE ⟨false, qs, some e :: ws, is, tr⟩ reg
      = (0, some e, ⟨false, qs, ws, is, tr⟩) ∧
    ReadRegS16LE ⟨false, qs, some e :: ws, is, tr⟩ reg
      = (0, some e, ⟨false, qs, ws, is, tr⟩) ∧
    ReadRegU32BE ⟨false, qs, some e :: ws, is, tr⟩ reg
      = (0, some e, ⟨false, qs, ws, is, tr⟩) ∧
    ReadRegBytes ⟨false, .error e :: rs, none :: ws, is, tr⟩ reg n
      = (none, 0, some e,
         ⟨false, rs, ws, is, tr ++ [.evWrite [reg % 256]]⟩) ∧
    ReadRegU8 ⟨false, .error e :: rs, none :: ws, is, tr⟩ reg
      = (0, some e, ⟨false, rs, ws, is, tr ++ [.evWrite [reg % 256]]⟩) ∧
    ReadRegU16BE ⟨false, .error e :: rs, none :: ws, is, tr⟩ reg
      = (0, some e, ⟨false, rs, ws, is, tr ++ [.evWrite [reg % 256]]⟩) ∧
    ReadRegU16LE ⟨false, .error e :: rs, none :: ws, is, tr⟩ reg
      = (0, some e, ⟨false, rs, ws, is, tr ++ [.evWrite [reg % 256]]⟩) ∧
    ReadRegS16BE ⟨false, .error e :: rs, none :: ws, is, tr⟩ reg
      = (0, some e, ⟨false, rs, ws, is, tr ++ [.evWrite [reg % 256]]⟩) ∧
    ReadRegS16LE ⟨false, .error e :: rs, none :: ws, is, tr⟩ reg
      = (0, some e, ⟨false, rs, ws, is, tr ++ [.evWrite [reg % 256]]⟩) ∧
    ReadRegU32BE ⟨false, .error e :: rs, none :: ws, is, tr⟩ reg
      = (0, some e, ⟨false, rs, ws, is, tr ++ [.evWrite [reg % 256]]⟩) :=
  ⟨rfl, rfl, rfl, rfl, rfl, rfl, rfl, rfl, rfl, rfl, rfl, rfl, rfl, rfl⟩

/-- C10: called with an empty write buffer or an empty read buffer,
`WriteThenReadBytes` panics (index out of range taking the address of
the buffer's first element) before any I/O, instead of returning an
error; any non-panic outcome requires both buffers non-empty. -/
theorem writeThenReadBytes_empty_panics (addr : Nat) (f : File)
    (writeBuf readBuf : List Nat)
    (h : writeBuf = [] ∨ readBuf = []) :
    WriteThenReadBytes addr f writeBuf readBuf = (.panic, f) := by
  unfold WriteThenReadBytes
  rw [if_pos h]

/-- C10 witness: at the concrete input `writeBuf = []`, `readBuf = [0]`
on a fresh open handle, the call panics and performs no I/O. -/
theorem writeThenReadBytes_empty_panics_witness :
    WriteThenReadBytes 0x42 ⟨false, [], [], [], []⟩ [] [0]
      = (.panic, ⟨false, [], [], [], []⟩) :=
  writeThenReadBytes_empty_panics 0x42 ⟨false, [], [], [], []⟩ [] [0]
    (Or.inl rfl)

/-- C1 is false of the code: `WriteRegU16LE` computes its byte swap
with `(value*0xFF00)>>8` — a multiplication, not a bitwise and — so at
`reg = 0x00`, `value = 0x0102` it writes `[0x00, 0x02, 0xFE]` on the
bus, not the little-endian encoding `[0x00, 0x02, 0x01]` the claim
(and the function's own documentation) require; `WriteRegS16LE` shares
the same arithmetic and writes the same wrong bytes. -/
theorem writeRegU16LE_not_little_endian :
    (WriteRegU16LE ⟨false, [], [], [], []⟩ 0x00 0x0102).2.trace
      = [.evWrite [0x00, 0x02, 0xFE]] ∧
    (WriteRegS16LE ⟨false, [], [], [], []⟩ 0x00 0x0102).2.trace
      = [.evWrite [0x00, 0x02, 0xFE]] ∧
    ([0x00, 0x02, 0xFE] : List Nat) ≠ [0x00, 0x02, 0x01] := by
  refine ⟨rfl, rfl, ?_⟩
  decide

/-- C2 is false of the code: on response bytes `[0xFF, 0x00]`,
`ReadRegS16BE` yields `-256` (pattern `0xFF00`); exchanging the two
bytes gives the pattern `0x00FF`, i.e. the value `255`; but
`ReadRegS16LE` applies `w>>8` to the signed `int16`, an arithmetic
shift that drags the sign in, and returns `-1`. -/
theorem readRegS16LE_not_byte_swap :
    (ReadRegS16BE ⟨false, [.ok [0xFF, 0x00]], [], [], []⟩ 0x05).1 = -256 ∧
    int16ofPattern 0x00FF = 255 ∧
    (ReadRegS16LE ⟨false, [.ok [0xFF, 0x00]], [], [], []⟩ 0x05).1 = -1 ∧
    (-1 : Int) ≠ 255 := by
  refine ⟨rfl, by decide, ?_, by decide⟩
  decide

/-- C6: for every register and response bytes `b0, b1`, `ReadRegU16BE`
returns the unsigned value `b0<<8 + b1` (the bitwise-or of the claim,
the bytes being disjoint) and `ReadRegU16LE` returns it with the two
bytes swapped; on `[0x12, 0x34]` they yield `0x1234` and `0x3412`. -/
theorem readRegU16_decode (reg b0 b1 : Nat)
    (qs : List (Except Err (List Nat))) (is : List (Option Err))
    (tr : List Event) (hb0 : b0 < 256) (hb1 : b1 < 256) :
    (ReadRegU16BE ⟨false, .ok [b0, b1] :: qs, [], is, tr⟩ reg).1
      = b0 <<< 8 + b1 ∧
    (ReadRegU16LE ⟨false, .ok [b0, b1] :: qs, [], is, tr⟩ reg).1
      = b1 <<< 8 + b0 ∧
    (ReadRegU16BE ⟨false, [.ok [0x12, 0x34]], [], [], []⟩ 0x05).1 = 0x1234 ∧
    (ReadRegU16LE ⟨false, [.ok [0x12, 0x34]], [], [], []⟩ 0x05).1 = 0x3412 := by
  refine ⟨?_, ?_, rfl, rfl⟩
  · simp [ReadRegU16BE, WriteBytes, fileWrite, ReadBytes, fileRead, toBytes,
      Nat.shiftLeft_eq, Nat.mod_eq_of_lt hb0, Nat.mod_eq_of_lt hb1]
    all_goals omega
  · have h : b0 * 256 + b1 < 65536 := by omega
    have h1 : (b0 * 256 + b1) / 256 = b0 := by omega
    have h2 : (b0 * 256 + b1) % 256 = b1 := by omega
    simp [ReadRegU16LE, ReadRegU16BE, WriteBytes, fileWrite, ReadBytes,
      fileRead, toBytes, and255_eq_mod, Nat.shiftLeft_eq,
      Nat.shiftRight_eq_div_pow, Nat.mod_eq_of_lt hb0, Nat.mod_eq_of_lt hb1,
      Nat.mod_eq_of_lt h, h1, h2]
    all_goals omega

/-- C6 witness: the general decode equations instantiated at register
`0x05` and response bytes `[0x12, 0x34]`. -/
theorem readRegU16_decode_witness :
    (ReadRegU16BE ⟨false, [.ok [0x12, 0x34]], [], [], []⟩ 0x05).1
      = 0x12 <<< 8 + 0x34 :=
  (readRegU16_decode 0x05 0x12 0x34 [] [] [] (by decide) (by decide)).1

/-- C8: for every register byte and 32-bit `value`, `WriteRegU32BE`
extends the bus trace by exactly one write whose buffer is the five
bytes `[reg, value>>24, value>>16, value>>8, value]`, each truncated to
a byte; at `(0x10, 0x01020304)` it writes `[0x10,0x01,0x02,0x03,0x04]`. -/
theorem writeRegU32BE_buffer (reg value : Nat)
    (qs : List (Except Err (List Nat))) (is : List (Option Err))
    (tr : List Event) (hreg : reg < 256) (_hv : value < 4294967296) :
    WriteRegU32BE ⟨false, qs, [], is, tr⟩ reg value =
      (none, ⟨false, qs, [], is,
        tr ++ [.evWrite [reg, value >>> 24 % 256, value >>> 16 % 256,
                         value >>> 8 % 256, value % 256]]⟩) ∧
    WriteRegU32BE ⟨false, [], [], [], []⟩ 0x10 0x01020304 =
      (none, ⟨false, [], [], [],
        [.evWrite [0x10, 0x01, 0x02, 0x03, 0x04]]⟩) := by
  refine ⟨?_, rfl⟩
  simp [WriteRegU32BE, WriteBytes, fileWrite, and255_eq_mod,
    Nat.shiftRight_eq_div_pow, Nat.mod_eq_of_lt hreg]

/-- C8 witness: the general buffer equation instantiated at register
`0x10` and value `0x01020304`. -/
theorem writeRegU32BE_buffer_witness :
    WriteRegU32BE ⟨false, [], [], [], []⟩ 0x10 0x01020304 =
      (none, ⟨false, [], [], [],
        [.evWrite [0x10, 0x01020304 >>> 24 % 256, 0x01020304 >>> 16 % 256,
                   0x01020304 >>> 8 % 256, 0x01020304 % 256]]⟩) :=
  (writeRegU32BE_buffer 0x10 0x01020304 [] [] [] (by decide) (by decide)).1

/-- C9: for every register byte and every payload, `WriteRegBytes`
extends the bus trace by exactly one write whose buffer is `reg`
followed by the payload bytes unmodified, and returns the full byte
count written. -/
theorem writeRegBytes_prefix (reg : Nat) (payload : List Nat)
    (qs : List (Except Err (List Nat))) (is : List (Option Err))
    (tr : List Event) (hreg : reg < 256) :
    WriteRegBytes ⟨false, qs, [], is, tr⟩ reg payload =
      (payload.length + 1, none,
       ⟨false, qs, [], is, tr ++ [.evWrite (reg :: payload)]⟩) := by
  simp [WriteRegBytes, WriteBytes, fileWrite, Nat.mod_eq_of_lt hreg]

/-- C9 witness: register `0xAB` with the two-byte payload
`[0x01, 0x02]` goes out as the single write `[0xAB, 0x01, 0x02]`. -/
theorem writeRegBytes_prefix_witness :
    WriteRegBytes ⟨false, [], [], [], []⟩ 0xAB [0x01, 0x02] =
      (3, none, ⟨false, [], [], [], [.evWrite [0xAB, 0x01, 0x02]]⟩) :=
  writeRegBytes_prefix 0xAB [0x01, 0x02] [] [] [] (by decide)

end I2C
